import Mathlib

/-!
Shallow embedding of parts of the `typhonjs-fvtt/svelte` (TRL) repository and
proofs about its behaviour.

Modules covered:
* `ApplicationStateImpl` — the save / restore snapshot map for application
  position / UI state (`src/unnamed/part_002`).
* `TJSDocument` — the Svelte store / subscriber protocol wrapper
  (`src/src/store/fvtt/TJSDocument.js`, first file in the bundle).
* `SvelteReactiveImpl` — reactive option setters and header button updates
  (`src/src/application/internal/state-reactive/SvelteReactiveImpl.ts`).
* `Transforms` — the 4x4 matrix / CSS transform calculator
  (`src/src/store/fvtt/TJSDocument.js`, second file in the bundle).

JavaScript numbers are modelled as exact rationals (`ℚ`); where the source
distinguishes finite numbers from `NaN` / `Infinity` / `undefined`
(`Number.isFinite` checks, `NaN` propagation), non-finite values are modelled
by `Option ℚ` with `none` standing for any non-finite value.
-/

/-- Subset of JavaScript primitive values used by the embedded code. `num q`
is a finite number (modelled as an exact rational); `nan` stands for any
non-finite number (`NaN`, `±Infinity`), so that `Number.isFinite` checks are
exactly a match on `num`. -/
inductive JSVal where
  | undef
  | jsNull
  | bool (b : Bool)
  | num (q : ℚ)
  | nan
  | str (s : String)
  deriving DecidableEq, Repr

/-- JavaScript `typeof v === 'string'`. -/
def JSVal.isStr : JSVal → Bool
  | .str _ => true
  | _ => false

/-- JavaScript `typeof v === 'boolean'`. -/
def JSVal.isBool : JSVal → Bool
  | .bool _ => true
  | _ => false

/-- The only kind of exception thrown by the embedded code (`throw new TypeError(...)`). -/
inductive JSError where
  | typeError (msg : String)
  deriving DecidableEq, Repr

/-- Lookup in a JavaScript `Map` / plain object (`Map.prototype.get`,
property read), modelled as an insertion-ordered association list. -/
def jmapGet [DecidableEq κ] (l : List (κ × α)) (k : κ) : Option α :=
  match l with
  | [] => none
  | (k', v) :: t => if k' = k then some v else jmapGet t k

/-- JavaScript `Map.prototype.set` / property assignment: replaces the value
of an existing key in place, otherwise appends the new entry. -/
def jmapSet [DecidableEq κ] (l : List (κ × α)) (k : κ) (v : α) : List (κ × α) :=
  match l with
  | [] => [(k, v)]
  | (k', v') :: t => if k' = k then (k', v) :: t else (k', v') :: jmapSet t k v

/-- JavaScript `Map.prototype.delete` / the `delete` operator (keys are
unique, so removing every entry with the key is exact). -/
def jmapDelete [DecidableEq κ] (l : List (κ × α)) (k : κ) : List (κ × α) :=
  l.filter (fun e => e.1 ≠ k)

/-! ## ApplicationStateImpl (`src/unnamed/part_002`)

The application itself (`SvelteApplication`) is external to this class; the
parts of it touched by `ApplicationStateImpl` are modelled as an explicit
record (`App`), and calls into the application (`maximize`, `minimize`,
`position.animate.to`, `reactive.mergeOptions`, `position.state.set`) are
recorded both as state updates and as an effect trace. -/

/-- Position data object as stored in / applied from saved state
(`application.position.get()` snapshots and `data.position` /
`data.beforeMinimized` members). `left` / `top` are explicit because
`#setImpl` patches them in the not-rendered branch; the remaining properties
(width, height, ...) are collapsed into an opaque `payload`. -/
structure PosObj where
  left : JSVal
  top : JSVal
  transformOrigin : JSVal
  payload : ℕ
  deriving DecidableEq, Repr

/-- The `ui` member of saved application state. -/
structure UIObj where
  minimized : JSVal
  deriving DecidableEq, Repr

/-- `ApplicationStateData` as produced by `ApplicationStateImpl.current`:
`Object.assign(extra, { position, beforeMinimized, options, ui })`.
`Option` is `isObject`: `none` means the member is not an object. The
`options` object (`reactive.toJSON()`) and the extra data are opaque. -/
structure StateData where
  position : Option PosObj
  beforeMinimized : Option PosObj
  options : Option ℕ
  ui : Option UIObj
  extra : ℕ
  deriving DecidableEq, Repr

/-- Argument of `ApplicationStateImpl.set` / `#setImpl`: either a proper
state-data object or a non-object value (failing `isObject`). -/
inductive JSData where
  | notObj (v : JSVal)
  | obj (d : StateData)
  deriving DecidableEq, Repr

/-- The runtime `isObject(data)` check applied to a `set` / `#setImpl` argument. -/
def JSData.isObj : JSData → Bool
  | .obj _ => true
  | .notObj _ => false

/-- The slice of `SvelteApplication` read / written by `ApplicationStateImpl`. -/
structure App where
  rendered : Bool
  minimized : Bool
  transformOrigin : JSVal
  position : PosObj
  beforeMinimizedState : Option PosObj
  optionsJSON : ℕ
  deriving DecidableEq, Repr

/-- Calls made by `ApplicationStateImpl` into the application, recorded as a
trace. `animateScheduled` stands for `application.position.animate.to(...)`;
its completion callback is modelled separately by `setImplOnFinished`. -/
inductive AppEffect where
  | warn (msg : String)
  | setTransformOrigin (v : JSVal)
  | maximize
  | minimize (animate : Bool) (duration : ℚ)
  | animateScheduled (pos : PosObj) (duration : ℚ) (ease : JSVal)
  | mergedOptions (o : ℕ)
  | savedBeforeMinimized (p : PosObj)
  | positionSet (p : PosObj)
  deriving DecidableEq, Repr

namespace ApplicationStateImpl

/-- Full state of an `ApplicationStateImpl` instance together with its
application. `dataSaved` is the `#dataSaved` map, `currentRestoreKey` the
`#currentRestoreKey` member. -/
structure AppState where
  app : App
  currentRestoreKey : Option String
  dataSaved : List (String × StateData)
  deriving DecidableEq, Repr

/-- `ApplicationStateImpl.current(extra)`. -/
def current (app : App) (extra : ℕ) : StateData :=
  { position := some app.position
    beforeMinimized := app.beforeMinimizedState
    options := some app.optionsJSON
    ui := some ⟨.bool app.minimized⟩
    extra := extra }

/-- `ApplicationStateImpl.clear()`. -/
def clear (st : AppState) : AppState :=
  { st with dataSaved := [] }

/-- `ApplicationStateImpl.get({ name })`. Returns the (unchanged) state, the
effect trace and either the looked-up data or the thrown `TypeError`. -/
def get (st : AppState) (name : JSVal) :
    AppState × List AppEffect × Except JSError (Option StateData) :=
  match name with
  | .str s => (st, [], .ok (jmapGet st.dataSaved s))
  | _ => (st, [], .error (.typeError "ApplicationState - get error: name is not a string."))

/-- `ApplicationStateImpl.remove({ name })`. -/
def remove (st : AppState) (name : JSVal) :
    AppState × List AppEffect × Except JSError (Option StateData) :=
  match name with
  | .str s =>
    ({ st with dataSaved := jmapDelete st.dataSaved s }, [], .ok (jmapGet st.dataSaved s))
  | _ => (st, [], .error (.typeError "ApplicationState - remove: name is not a string."))

/-- `ApplicationStateImpl.save({ name, ...extra })`. -/
def save (st : AppState) (name : JSVal) (extra : ℕ) :
    AppState × List AppEffect × Except JSError StateData :=
  match name with
  | .str s =>
    let data := current st.app extra
    ({ st with dataSaved := jmapSet st.dataSaved s data }, [], .ok data)
  | _ => (st, [], .error (.typeError "ApplicationState - save error: name is not a string."))

/-- JavaScript `typeof data.ui.minimized === 'boolean' ? data.ui.minimized : false`. -/
def minimizedOf (ui : UIObj) : Bool :=
  match ui.minimized with
  | .bool b => b
  | _ => false

/-- Body of `ApplicationStateImpl.#setImpl` after the initial `isObject(data)`
type check (everything past the `throw`); this part never throws. The `async`
flag only selects whether the animation promise is returned and is dropped
here. Effects deferred to the animation-completion callback are modelled by
`setImplOnFinished`. -/
def setImplObj (app : App) (d : StateData) (animateTo : Bool) (duration : ℚ) (ease : JSVal) :
    App × List AppEffect :=
  match d.position with
    | none => (app, [.warn "ApplicationState.set warning: data.position is not an object."])
    | some pos =>
      if animateTo then
        if !app.rendered then
          (app, [.warn "ApplicationState.set warning: Application is not rendered and animateTo is true."])
        else
          -- Provide special handling to potentially change transform origin.
          let p1 : App × List AppEffect :=
            if pos.transformOrigin ≠ app.transformOrigin then
              ({ app with transformOrigin := pos.transformOrigin },
               [AppEffect.setTransformOrigin pos.transformOrigin])
            else (app, [])
          let p2 : App × List AppEffect :=
            match d.ui with
            | some ui =>
              if p1.1.minimized && !(minimizedOf ui) then
                ({ p1.1 with minimized := false }, [AppEffect.maximize])
              else (p1.1, [])
            | none => (p1.1, [])
          (p2.1, p1.2 ++ p2.2 ++ [AppEffect.animateScheduled pos duration ease])
      else
        if app.rendered then
          let e1 : List AppEffect :=
            match d.options with
            | some o => [AppEffect.mergedOptions o]
            | none => []
          let p2 : App × List AppEffect :=
            match d.ui with
            | some ui =>
              if app.minimized && !(minimizedOf ui) then
                ({ app with minimized := false }, [AppEffect.maximize])
              else if !app.minimized && minimizedOf ui then
                ({ app with minimized := true }, [AppEffect.minimize false duration])
              else (app, [])
            | none => (app, [])
          let p3 : App × List AppEffect :=
            match d.beforeMinimized with
            | some p =>
              ({ p2.1 with beforeMinimizedState := some p }, [AppEffect.savedBeforeMinimized p])
            | none => (p2.1, [])
          ({ p3.1 with position := pos }, e1 ++ p2.2 ++ p3.2 ++ [AppEffect.positionSet pos])
        else
          let posData :=
            match d.beforeMinimized with
            | some bm => { bm with left := pos.left, top := pos.top }
            | none => pos
          ({ app with position := posData }, [AppEffect.positionSet posData])

/-- `ApplicationStateImpl.#setImpl(data, { async, animateTo, duration, ease })`:
the initial `isObject(data)` check throwing a `TypeError`, then `setImplObj`. -/
def setImpl (app : App) (data : JSData) (animateTo : Bool) (duration : ℚ) (ease : JSVal) :
    App × List AppEffect × Except JSError Unit :=
  match data with
  | .notObj _ =>
    (app, [], .error (.typeError "ApplicationState - restore error: data is not an object."))
  | .obj d =>
    let res := setImplObj app d animateTo duration ease
    (res.1, res.2, .ok ())

/-- Completion callback of the animation scheduled by `#setImpl` with
`animateTo` (the `.finished.then(({ cancelled }) => ...)` body), applied to
the application state at completion time. -/
def setImplOnFinished (d : StateData) (cancelled : Bool) (app : App) :
    App × List AppEffect :=
  if cancelled then (app, [])
  else
    let e1 : List AppEffect :=
      match d.options with
      | some o => [AppEffect.mergedOptions o]
      | none => []
    let (app2, e2) :=
      match d.ui with
      | some ui =>
        if !app.minimized && minimizedOf ui then
          ({ app with minimized := true }, [AppEffect.minimize false 0])
        else (app, [])
      | none => (app, [])
    let (app3, e3) :=
      match d.beforeMinimized with
      | some p => ({ app2 with beforeMinimizedState := some p }, [AppEffect.savedBeforeMinimized p])
      | none => (app2, [])
    (app3, e1 ++ e2 ++ e3)

/-- `ApplicationStateImpl.set(data, options)` — `#setImpl` with `async: false`. -/
def set (st : AppState) (data : JSData) (animateTo : Bool) (duration : ℚ) (ease : JSVal) :
    AppState × List AppEffect × Except JSError Unit :=
  let (app', effs, r) := setImpl st.app data animateTo duration ease
  ({ st with app := app' }, effs, r)

/-- `ApplicationStateImpl.restore({ name, remove, animateTo, duration, ease })`.
When an animated restore is scheduled, `#currentRestoreKey` is set to the
name; the `.then` callback resetting it on completion is `restoreOnFinished`. -/
def restore (st : AppState) (name : JSVal) (removeEntry animateTo : Bool)
    (duration : ℚ) (ease : JSVal) :
    AppState × List AppEffect × Except JSError (Option StateData) :=
  match name with
  | .str s =>
    match jmapGet st.dataSaved s with
    | some d =>
      let st1 := if removeEntry then { st with dataSaved := jmapDelete st.dataSaved s } else st
      if animateTo && st1.currentRestoreKey ≠ some s then
        let st2 := { st1 with currentRestoreKey := some s }
        let res := setImplObj st2.app d true duration ease
        ({ st2 with app := res.1 }, res.2, .ok (some d))
      else
        (st1, [], .ok (some d))
    | none => (st, [], .ok none)
  | _ => (st, [], .error (.typeError "ApplicationState - restore error: name is not a string."))

/-- Completion callback of an animated restore (resets `#currentRestoreKey`
when it still names the animation that finished). -/
def restoreOnFinished (name : String) (st : AppState) : AppState :=
  if st.currentRestoreKey = some name then { st with currentRestoreKey := none } else st

end ApplicationStateImpl

/-! ## TJSDocument (`src/src/store/fvtt/TJSDocument.js`)

Documents and subscriber callbacks are opaque and identified by natural
numbers; invoking a subscriber callback is recorded as an event
`(handler, document, options)` in a trace. Host-side bookkeeping
(registration on `document.apps`, the embedded store manager) is outside the
store protocol and not modelled. -/

namespace TJSDocument

/-- An options object passed to subscriber callbacks (`#updateOptions`);
`action` / `data` members, absent members are `none`. -/
structure UpdateOptions where
  action : Option String
  data : Option ℕ
  deriving DecidableEq, Repr

/-- The default empty options object of `#updateSubscribers`. -/
def emptyOptions : UpdateOptions := ⟨none, none⟩

/-- The literal `{ action: 'subscribe', data: void 0 }` built by `subscribe`. -/
def subscribeOptions : UpdateOptions := ⟨some "subscribe", none⟩

/-- State of a `TJSDocument` instance: `#document[0]`, `#subscriptions`,
`#updateOptions`. -/
structure DocState where
  document : Option ℕ
  subscriptions : List ℕ
  updateOptions : UpdateOptions
  deriving DecidableEq, Repr

/-- One invocation of a subscriber callback: the handler, the document
argument and the options argument it receives. -/
abbrev DocEvent := ℕ × Option ℕ × UpdateOptions

/-- `TJSDocument.#updateSubscribers(force, options)`: stores the options and
invokes every subscription in order with the current document. -/
def updateSubscribers (st : DocState) (options : UpdateOptions) :
    DocState × List DocEvent :=
  ({ st with updateOptions := options },
   st.subscriptions.map (fun h => (h, st.document, options)))

/-- `TJSDocument.set(document, options)` for a valid document / `undefined`
and a valid options object (the two `TypeError` guards reject any other
argument before state changes). The trailing `this.#updateSubscribers()` call
passes no arguments, so subscribers receive the default empty options object
and it overwrites `#updateOptions` with that object as well. -/
def set (st : DocState) (document : Option ℕ) (options : UpdateOptions) :
    DocState × List DocEvent :=
  let st1 := { st with document := document, updateOptions := options }
  updateSubscribers st1 emptyOptions

/-- `TJSDocument.subscribe(handler)`: pushes the handler onto
`#subscriptions`, then invokes it once with the current document and
`subscribeOptions`. -/
def subscribe (st : DocState) (handler : ℕ) : DocState × List DocEvent :=
  ({ st with subscriptions := st.subscriptions ++ [handler] },
   [(handler, st.document, subscribeOptions)])

/-- The unsubscribe closure returned by `subscribe`, applied for `handler`:
`findIndex((sub) => sub === handler)` followed by `splice(index, 1)` when the
index is non-negative. -/
def unsubscribeFor (handler : ℕ) (st : DocState) : DocState :=
  match st.subscriptions.findIdx? (fun sub => sub == handler) with
  | some i => { st with subscriptions := st.subscriptions.eraseIdx i }
  | none => st

end TJSDocument

/-! ## SvelteReactiveImpl
(`src/src/application/internal/state-reactive/SvelteReactiveImpl.ts`) -/

namespace SvelteReactiveImpl

/-- A header button as returned by `Application._getHeaderButtons()`: its
`class` and `label` members are explicit, all other members (icon, onclick,
...) are collapsed into an opaque payload. -/
structure HeaderButton where
  «class» : JSVal
  label : JSVal
  payload : ℕ
  deriving DecidableEq, Repr

/-- The UI state data held by the UI state store (`#storeUIState`); members
other than `headerButtons` are collapsed into an opaque payload. -/
structure UIState where
  headerButtons : List HeaderButton
  payload : ℕ
  deriving DecidableEq, Repr

/-- `SvelteReactiveImpl.updateHeaderButtons({ headerButtonNoClose,
headerButtonNoLabel })` with the two flags given explicitly (their defaults
read the application options) and `this.#application._getHeaderButtons()`
supplied as `getHeaderButtons`. The result of the `#storeUIStateUpdate`
callback: `options.headerButtons = buttons`. -/
def updateHeaderButtons (headerButtonNoClose headerButtonNoLabel : JSVal)
    (getHeaderButtons : List HeaderButton) (ui : UIState) : UIState :=
  let buttons := getHeaderButtons
  -- Remove close button if headerButtonNoClose is (boolean) true.
  let buttons :=
    match headerButtonNoClose with
    | .bool true => buttons.filter (fun b => decide (b.«class» ≠ JSVal.str "close"))
    | _ => buttons
  -- Remove labels if headerButtonNoLabel is (boolean) true.
  let buttons :=
    match headerButtonNoLabel with
    | .bool true => buttons.map (fun b => { b with label := JSVal.undef })
    | _ => buttons
  { ui with headerButtons := buttons }

/-- The reactive option state: the application options object
(`#application.options`, a flat string-keyed object) and the current content
of the app options store (`#storeAppOptions` / `#storeAppOptionsUpdate`). -/
structure ReactiveState where
  options : List (String × JSVal)
  storeAppOptions : List (String × JSVal)
  deriving DecidableEq, Repr

/-- `SvelteReactiveImpl.setOptions(accessor, value)`: `safeSet` on a flat
(single-level) accessor of the plain options object always succeeds, after
which the store update pushes the options object to the store. -/
def setOptions (st : ReactiveState) (accessor : String) (value : JSVal) : ReactiveState :=
  let newOptions := jmapSet st.options accessor value
  { options := newOptions, storeAppOptions := newOptions }

/-- The eleven boolean-valued reactive option setters. -/
inductive BoolOption where
  | draggable | focusAuto | focusKeep | focusTrap
  | headerButtonNoClose | headerButtonNoLabel | headerNoTitleMinimized
  | minimizable | popOut | positionable | resizable
  deriving DecidableEq, Repr

/-- The options key written by each boolean setter. -/
def BoolOption.key : BoolOption → String
  | .draggable => "draggable"
  | .focusAuto => "focusAuto"
  | .focusKeep => "focusKeep"
  | .focusTrap => "focusTrap"
  | .headerButtonNoClose => "headerButtonNoClose"
  | .headerButtonNoLabel => "headerButtonNoLabel"
  | .headerNoTitleMinimized => "headerNoTitleMinimized"
  | .minimizable => "minimizable"
  | .popOut => "popOut"
  | .positionable => "positionable"
  | .resizable => "resizable"

/-- Common body of the eleven boolean option setters (`set draggable` ...
`set resizable`): `if (typeof v === 'boolean') this.setOptions(key, v)`. -/
def setBoolOption (st : ReactiveState) (k : BoolOption) (value : JSVal) : ReactiveState :=
  match value with
  | .bool b => setOptions st k.key (.bool b)
  | _ => st

/-- `set title(title)`: strings are set as given; `undefined` and `null` are
mapped to the empty string; any other value is ignored. -/
def setTitle (st : ReactiveState) (value : JSVal) : ReactiveState :=
  match value with
  | .str s => setOptions st "title" (.str s)
  | .undef => setOptions st "title" (.str "")
  | .jsNull => setOptions st "title" (.str "")
  | _ => st

end SvelteReactiveImpl

/-! ## Transforms (`src/src/store/fvtt/TJSDocument.js`, second bundled file)

The matrix / vector layer is gl-matrix (re-exported by the repository math
module): column-major flat 4x4 matrices and 3-vectors. Numeric values are
`JQ := Option ℚ`: `some q` is a finite number, `none` any non-finite value
(`NaN`, or `undefined` entering arithmetic); arithmetic propagates `none` the
way JavaScript arithmetic propagates `NaN`. `Math.cos` / `Math.sin` / `π`
are irrational, so they are abstract parameters `cosF sinF : ℚ → ℚ` and
`piV : ℚ` of the functions that use them. -/

namespace Transforms

/-- JavaScript numeric value: `some q` finite, `none` non-finite. -/
abbrev JQ := Option ℚ

/-- JS addition, propagating non-finite operands. -/
def jadd : JQ → JQ → JQ
  | some a, some b => some (a + b)
  | _, _ => none

/-- JS subtraction, propagating non-finite operands. -/
def jsub : JQ → JQ → JQ
  | some a, some b => some (a - b)
  | _, _ => none

/-- JS multiplication, propagating non-finite operands. -/
def jmul : JQ → JQ → JQ
  | some a, some b => some (a * b)
  | _, _ => none

/-- JS division; division by zero and non-finite operands yield a non-finite
result. -/
def jdiv : JQ → JQ → JQ
  | some a, some b => if b = 0 then none else some (a / b)
  | _, _ => none

/-- JS unary minus. -/
def jneg : JQ → JQ
  | some a => some (-a)
  | none => none

/-- JS comparison `a > b`; a comparison involving a non-finite (`NaN`)
operand is false (the code only compares finite values and `NaN`). -/
def jgt : JQ → JQ → Bool
  | some a, some b => decide (b < a)
  | _, _ => false

/-- JS comparison `a < b`; false on non-finite operands. -/
def jlt : JQ → JQ → Bool
  | some a, some b => decide (a < b)
  | _, _ => false

/-- `Math.cos` lifted to `JQ` through the abstract `cosF`. -/
def jcos (cosF : ℚ → ℚ) : JQ → JQ
  | some a => some (cosF a)
  | none => none

/-- `Math.sin` lifted to `JQ` through the abstract `sinF`. -/
def jsin (sinF : ℚ → ℚ) : JQ → JQ
  | some a => some (sinF a)
  | none => none

/-- `degToRad` from the repository math module: `deg * (Math.PI / 180)` with
the abstract `piV` standing for `Math.PI`. -/
def degToRad (piV : ℚ) (deg : JQ) : JQ := jmul deg (some (piV / 180))

/-- JS `w || 1`: `0` and `NaN` are falsy and give `1`. -/
def orOne : JQ → JQ
  | some q => if q = 0 then some 1 else some q
  | none => some 1

/-- Column-major flat 4x4 matrix of JS numbers (gl-matrix `mat4` layout,
entry `nI` is index `I` of the flat array). -/
structure Mat4 where
  n0 : JQ
  n1 : JQ
  n2 : JQ
  n3 : JQ
  n4 : JQ
  n5 : JQ
  n6 : JQ
  n7 : JQ
  n8 : JQ
  n9 : JQ
  n10 : JQ
  n11 : JQ
  n12 : JQ
  n13 : JQ
  n14 : JQ
  n15 : JQ
  deriving DecidableEq, Repr

/-- gl-matrix `mat4.identity` / `mat4.create`. -/
def idMat4 : Mat4 :=
  ⟨some 1, some 0, some 0, some 0,
   some 0, some 1, some 0, some 0,
   some 0, some 0, some 1, some 0,
   some 0, some 0, some 0, some 1⟩

/-- The flat entries of a matrix in index order (used by `join(',')`). -/
def mat4ToList (m : Mat4) : List JQ :=
  [m.n0, m.n1, m.n2, m.n3, m.n4, m.n5, m.n6, m.n7,
   m.n8, m.n9, m.n10, m.n11, m.n12, m.n13, m.n14, m.n15]

/-- gl-matrix `mat4.fromTranslation([x, y, z])`. -/
def fromTranslation (x y z : JQ) : Mat4 :=
  ⟨some 1, some 0, some 0, some 0,
   some 0, some 1, some 0, some 0,
   some 0, some 0, some 1, some 0,
   x, y, z, some 1⟩

/-- gl-matrix `mat4.fromScaling([x, y, z])`. -/
def fromScaling (x y z : JQ) : Mat4 :=
  ⟨x, some 0, some 0, some 0,
   some 0, y, some 0, some 0,
   some 0, some 0, z, some 0,
   some 0, some 0, some 0, some 1⟩

/-- gl-matrix `mat4.fromXRotation(rad)`. -/
def fromXRotation (cosF sinF : ℚ → ℚ) (rad : JQ) : Mat4 :=
  let c := jcos cosF rad
  let s := jsin sinF rad
  ⟨some 1, some 0, some 0, some 0,
   some 0, c, s, some 0,
   some 0, jneg s, c, some 0,
   some 0, some 0, some 0, some 1⟩

/-- gl-matrix `mat4.fromYRotation(rad)`. -/
def fromYRotation (cosF sinF : ℚ → ℚ) (rad : JQ) : Mat4 :=
  let c := jcos cosF rad
  let s := jsin sinF rad
  ⟨c, some 0, jneg s, some 0,
   some 0, some 1, some 0, some 0,
   s, some 0, c, some 0,
   some 0, some 0, some 0, some 1⟩

/-- gl-matrix `mat4.fromZRotation(rad)`. -/
def fromZRotation (cosF sinF : ℚ → ℚ) (rad : JQ) : Mat4 :=
  let c := jcos cosF rad
  let s := jsin sinF rad
  ⟨c, s, some 0, some 0,
   jneg s, c, some 0, some 0,
   some 0, some 0, some 1, some 0,
   some 0, some 0, some 0, some 1⟩

/-- Four-term dot product `b0*c0 + b1*c1 + b2*c2 + b3*c3`. -/
def dot4 (b0 b1 b2 b3 c0 c1 c2 c3 : JQ) : JQ :=
  jadd (jadd (jadd (jmul b0 c0) (jmul b1 c1)) (jmul b2 c2)) (jmul b3 c3)

/-- gl-matrix `mat4.multiply(out, a, b)`: `out[4c+r] = Σ_k b[4c+k] * a[4k+r]`. -/
def mul (a b : Mat4) : Mat4 :=
  ⟨dot4 b.n0 b.n1 b.n2 b.n3 a.n0 a.n4 a.n8 a.n12,
   dot4 b.n0 b.n1 b.n2 b.n3 a.n1 a.n5 a.n9 a.n13,
   dot4 b.n0 b.n1 b.n2 b.n3 a.n2 a.n6 a.n10 a.n14,
   dot4 b.n0 b.n1 b.n2 b.n3 a.n3 a.n7 a.n11 a.n15,
   dot4 b.n4 b.n5 b.n6 b.n7 a.n0 a.n4 a.n8 a.n12,
   dot4 b.n4 b.n5 b.n6 b.n7 a.n1 a.n5 a.n9 a.n13,
   dot4 b.n4 b.n5 b.n6 b.n7 a.n2 a.n6 a.n10 a.n14,
   dot4 b.n4 b.n5 b.n6 b.n7 a.n3 a.n7 a.n11 a.n15,
   dot4 b.n8 b.n9 b.n10 b.n11 a.n0 a.n4 a.n8 a.n12,
   dot4 b.n8 b.n9 b.n10 b.n11 a.n1 a.n5 a.n9 a.n13,
   dot4 b.n8 b.n9 b.n10 b.n11 a.n2 a.n6 a.n10 a.n14,
   dot4 b.n8 b.n9 b.n10 b.n11 a.n3 a.n7 a.n11 a.n15,
   dot4 b.n12 b.n13 b.n14 b.n15 a.n0 a.n4 a.n8 a.n12,
   dot4 b.n12 b.n13 b.n14 b.n15 a.n1 a.n5 a.n9 a.n13,
   dot4 b.n12 b.n13 b.n14 b.n15 a.n2 a.n6 a.n10 a.n14,
   dot4 b.n12 b.n13 b.n14 b.n15 a.n3 a.n7 a.n11 a.n15⟩

/-- gl-matrix `vec3`. -/
structure Vec3 where
  x : JQ
  y : JQ
  z : JQ
  deriving DecidableEq, Repr

/-- gl-matrix `vec3.transformMat4(out, a, m)` (with the `w = w || 1`
perspective divide). -/
def transformMat4 (v : Vec3) (m : Mat4) : Vec3 :=
  let w := orOne (jadd (jadd (jadd (jmul m.n3 v.x) (jmul m.n7 v.y)) (jmul m.n11 v.z)) m.n15)
  ⟨jdiv (jadd (jadd (jadd (jmul m.n0 v.x) (jmul m.n4 v.y)) (jmul m.n8 v.z)) m.n12) w,
   jdiv (jadd (jadd (jadd (jmul m.n1 v.x) (jmul m.n5 v.y)) (jmul m.n9 v.z)) m.n13) w,
   jdiv (jadd (jadd (jadd (jmul m.n2 v.x) (jmul m.n6 v.y)) (jmul m.n10 v.z)) m.n14) w⟩

/-- The seven transform keys. -/
inductive TKey where
  | rotateX | rotateY | rotateZ | scale | translateX | translateY | translateZ
  deriving DecidableEq, Repr

/-- Key name strings. -/
def TKey.name : TKey → String
  | .rotateX => "rotateX"
  | .rotateY => "rotateY"
  | .rotateZ => "rotateZ"
  | .scale => "scale"
  | .translateX => "translateX"
  | .translateY => "translateY"
  | .translateZ => "translateZ"

/-- `constants.transformKeys` (`constants.js` of the position module, not
included under `src/`): the ordered list of transform keys, as consumed by
`hasTransform`, `getMat4` and `reset`. -/
def transformKeys : List TKey :=
  [.rotateX, .rotateY, .rotateZ, .scale, .translateX, .translateY, .translateZ]

/-- Inverse of `TKey.name`, for `reset`, which walks string keys of an
arbitrary object (`transformKeys.includes(key)`). -/
def parseTKey (s : String) : Option TKey :=
  transformKeys.find? (fun k => k.name == s)

/-- `constants.transformOriginDefault` (`constants.js`, not included under
`src/`). -/
def transformOriginDefault : String := "top left"

/-- The `transformOrigin` member of a position: a string, `null`, or absent /
any other value (which falls into the default switch case). -/
inductive TOrigin where
  | str (s : String)
  | jsNull
  | undef
  deriving DecidableEq, Repr

/-- The slice of `TJSPosition` data consumed by `Transforms`: `left`, `top`,
`width`, `height` (`none` = non-finite or non-numeric, e.g. `'auto'`), the
seven optional transform keys (`none` = absent or non-finite) and the
transform origin. -/
structure TPosition where
  left : JQ
  top : JQ
  width : JQ
  height : JQ
  rotateX : JQ
  rotateY : JQ
  rotateZ : JQ
  scale : JQ
  translateX : JQ
  translateY : JQ
  translateZ : JQ
  transformOrigin : TOrigin
  deriving DecidableEq, Repr

/-- Read a transform key of a position (`data[key]`). -/
def TPosition.getKey (p : TPosition) : TKey → JQ
  | .rotateX => p.rotateX
  | .rotateY => p.rotateY
  | .rotateZ => p.rotateZ
  | .scale => p.scale
  | .translateX => p.translateX
  | .translateY => p.translateY
  | .translateZ => p.translateZ

/-- Internal state of a `Transforms` instance: `_data` (an insertion-ordered
plain object whose present keys always hold finite numbers) and `#count`. -/
structure TState where
  data : List (TKey × ℚ)
  count : ℤ
  deriving DecidableEq, Repr

/-- `get isActive()`: `#count > 0`. -/
def isActive (st : TState) : Bool := decide (0 < st.count)

/-- Common body of the seven transform property setters (`set rotateX` ...
`set translateZ`): store the value when `Number.isFinite(value)`, otherwise
remove the key; `#count` is incremented / decremented when the key was absent
/ present. -/
def setKey (st : TState) (k : TKey) (value : JSVal) : TState :=
  match value with
  | .num q =>
    let st1 := if jmapGet st.data k = none then { st with count := st.count + 1 } else st
    { st1 with data := jmapSet st1.data k q }
  | _ =>
    let st1 := if jmapGet st.data k ≠ none then { st with count := st.count - 1 } else st
    { st1 with data := jmapDelete st1.data k }

/-- One iteration of the `reset` loop over the entries of the given object:
`transformKeys.includes(key) && Number.isFinite(data[key])` stores the value,
otherwise the key is deleted from `_data` (deleting a key that is not a
transform key is a no-op since `_data` never holds one). -/
def resetStep (acc : List (TKey × ℚ)) (kv : String × JSVal) : List (TKey × ℚ) :=
  match parseTKey kv.1 with
  | some k =>
    match kv.2 with
    | .num q => jmapSet acc k q
    | _ => jmapDelete acc k
  | none => acc

/-- `Transforms.reset(data)`: walks the entries of the given object with
`resetStep`; finally `#count = Object.keys(this._data).length`. -/
def reset (st : TState) (input : List (String × JSVal)) : TState :=
  let d := input.foldl resetStep st.data
  { data := d, count := (d.length : ℤ) }

/-- `Transforms.hasTransform(data)`: some transform key has a finite value. -/
def hasTransform (p : TPosition) : Bool :=
  transformKeys.any (fun k => (p.getKey k).isSome)

/-- `Transforms.getMat4(data, output)`. `dataArg = none` is a call on the
local `_data` itself (the default argument); `some p` a call on another data
object, for which the ordered local keys are applied first (rotation / scale
values read from `p`, translation values from the local data — the source
reads `this._data.translateX` there) and then all remaining finite transform
keys of `p` in `transformKeys` order. -/
def getMat4 (piV : ℚ) (cosF sinF : ℚ → ℚ) (st : TState) (dataArg : Option TPosition) : Mat4 :=
  let step := fun (m : Mat4) (kv : TKey × ℚ) =>
    let dval : JQ :=
      match dataArg with
      | none => some kv.2
      | some p => p.getKey kv.1
    match kv.1 with
    | .rotateX => mul m (fromXRotation cosF sinF (degToRad piV dval))
    | .rotateY => mul m (fromYRotation cosF sinF (degToRad piV dval))
    | .rotateZ => mul m (fromZRotation cosF sinF (degToRad piV dval))
    | .scale => mul m (fromScaling dval dval (some 1))
    | .translateX => mul m (fromTranslation (some kv.2) (some 0) (some 0))
    | .translateY => mul m (fromTranslation (some 0) (some kv.2) (some 0))
    | .translateZ => mul m (fromTranslation (some 0) (some 0) (some kv.2))
  let matrix := st.data.foldl step idMat4
  match dataArg with
  | none => matrix
  | some p =>
    let seen := st.data.map Prod.fst
    transformKeys.foldl (fun m k =>
      if (p.getKey k).isSome && !(seen.contains k) then
        match k with
        | .rotateX => mul m (fromXRotation cosF sinF (degToRad piV (p.getKey k)))
        | .rotateY => mul m (fromYRotation cosF sinF (degToRad piV (p.getKey k)))
        | .rotateZ => mul m (fromZRotation cosF sinF (degToRad piV (p.getKey k)))
        | .scale => mul m (fromScaling (p.getKey k) (p.getKey k) (some 1))
        | .translateX => mul m (fromTranslation (p.getKey k) (some 0) (some 0))
        | .translateY => mul m (fromTranslation (some 0) (p.getKey k) (some 0))
        | .translateZ => mul m (fromTranslation (some 0) (some 0) (p.getKey k))
      else m) matrix

/-- Model of JS number stringification for `Array.prototype.join` (the exact
numeral format of floats is immaterial to the claims, which only concern the
assembled string structure). -/
def qToString : JQ → String
  | some q => toString q
  | none => "NaN"

/-- `Transforms.getCSS(data)`: the `matrix3d(...)` CSS string of
`this.getMat4(data, s_MAT4_RESULT)`. -/
def getCSS (piV : ℚ) (cosF sinF : ℚ → ℚ) (st : TState) (dataArg : Option TPosition) : String :=
  "matrix3d(" ++ String.intercalate "," ((mat4ToList (getMat4 piV cosF sinF st dataArg)).map qToString) ++ ")"

/-- `Transforms.getOriginTranslation(position, output)`: pre- and post-
translation matrices for the transform origin. The scratch `s_VEC3_TEMP` z
component is never written and stays `0`. -/
def getOriginTranslation (p : TPosition) : Mat4 × Mat4 :=
  match p.transformOrigin with
  | .str "top left" =>
    (fromTranslation (some 0) (some 0) (some 0), fromTranslation (some 0) (some 0) (some 0))
  | .str "top center" =>
    (fromTranslation (jneg (jdiv p.width (some 2))) (some 0) (some 0),
     fromTranslation (jdiv p.width (some 2)) (some 0) (some 0))
  | .str "top right" =>
    (fromTranslation (jneg p.width) (some 0) (some 0),
     fromTranslation p.width (some 0) (some 0))
  | .str "center left" =>
    (fromTranslation (some 0) (jneg (jdiv p.height (some 2))) (some 0),
     fromTranslation (some 0) (jdiv p.height (some 2)) (some 0))
  | .jsNull =>
    (fromTranslation (jneg (jdiv p.width (some 2))) (jneg (jdiv p.height (some 2))) (some 0),
     fromTranslation (jdiv p.width (some 2)) (jdiv p.height (some 2)) (some 0))
  | .str "center" =>
    (fromTranslation (jneg (jdiv p.width (some 2))) (jneg (jdiv p.height (some 2))) (some 0),
     fromTranslation (jdiv p.width (some 2)) (jdiv p.height (some 2)) (some 0))
  | .str "center right" =>
    (fromTranslation (jneg p.width) (jneg (jdiv p.height (some 2))) (some 0),
     fromTranslation p.width (jdiv p.height (some 2)) (some 0))
  | .str "bottom left" =>
    (fromTranslation (some 0) (jneg p.height) (some 0),
     fromTranslation (some 0) p.height (some 0))
  | .str "bottom center" =>
    (fromTranslation (jneg (jdiv p.width (some 2))) (jneg p.height) (some 0),
     fromTranslation (jdiv p.width (some 2)) p.height (some 0))
  | .str "bottom right" =>
    (fromTranslation (jneg p.width) (jneg p.height) (some 0),
     fromTranslation p.width p.height (some 0))
  | _ => (idMat4, idMat4)

/-- A DOMRect-like bounding rectangle. -/
structure Rect where
  x : JQ
  y : JQ
  width : JQ
  height : JQ
  deriving DecidableEq, Repr

/-- The `TransformData` output instance: four corner points, the transform
matrix, the origin translations and the bounding rectangle. -/
structure TransformData where
  c0 : Vec3
  c1 : Vec3
  c2 : Vec3
  c3 : Vec3
  mat4 : Mat4
  originTranslations : Mat4 × Mat4
  boundingRect : Rect
  deriving DecidableEq, Repr

/-- A fresh `TransformData` (`TransformData.js` of the position module, not
included under `src/`: gl-matrix `vec3.create()` corner points,
`mat4.create()` matrices and a zeroed DOMRect). -/
def mkTransformData : TransformData :=
  { c0 := ⟨some 0, some 0, some 0⟩
    c1 := ⟨some 0, some 0, some 0⟩
    c2 := ⟨some 0, some 0, some 0⟩
    c3 := ⟨some 0, some 0, some 0⟩
    mat4 := idMat4
    originTranslations := (idMat4, idMat4)
    boundingRect := ⟨some 0, some 0, some 0, some 0⟩ }

/-- Optional validation data: the outer `Option` is property presence
(`none` = absent / nullish, skipped by `??`), the inner `JQ` the property
value itself (which may be non-finite). -/
structure ValidationData where
  width : Option JQ
  height : Option JQ
  offsetTop : Option JQ
  marginTop : Option JQ
  offsetLeft : Option JQ
  deriving DecidableEq, Repr

/-- An empty validation data object (the default argument). -/
def emptyValidation : ValidationData := ⟨none, none, none, none, none⟩

/-- `Number.MIN_SAFE_INTEGER`. -/
def minSafeInteger : JQ := some (-(2 ^ 53 - 1))

/-- `Number.MAX_SAFE_INTEGER`. -/
def maxSafeInteger : JQ := some (2 ^ 53 - 1)

/-- One iteration of the bounding-box scan of `getData` (the four `if`
statements of the loop body). -/
def scanStep (acc : JQ × JQ × JQ × JQ) (v : Vec3) : JQ × JQ × JQ × JQ :=
  let (maxX, maxY, minX, minY) := acc
  let maxX := if jgt v.x maxX then v.x else maxX
  let minX := if jlt v.x minX then v.x else minX
  let maxY := if jgt v.y maxY then v.y else maxY
  let minY := if jlt v.y minY then v.y else minY
  (maxX, maxY, minX, minY)

/-- `Transforms.getData(position, output, validationData)`. Returns the
updated output instance together with the position object as left behind by
the call (its `top` / `left` are incremented by the validation offsets on
entry and decremented again before returning). -/
def getData (piV : ℚ) (cosF sinF : ℚ → ℚ) (st : TState) (position : TPosition)
    (output : TransformData) (vd : ValidationData) : TransformData × TPosition :=
  let valWidth := vd.width.getD (some 0)
  let valHeight := vd.height.getD (some 0)
  let valOffsetTop := (vd.offsetTop <|> vd.marginTop).getD (some 0)
  let valOffsetLeft := vd.offsetLeft.getD (some 0)
  let pos1 := { position with top := jadd position.top valOffsetTop,
                              left := jadd position.left valOffsetLeft }
  let width := if pos1.width.isSome then pos1.width else valWidth
  let height := if pos1.height.isSome then pos1.height else valHeight
  let branch : Vec3 × Vec3 × Vec3 × Vec3 × Mat4 × (Mat4 × Mat4) :=
    if hasTransform pos1 then
      let r0 : Vec3 := ⟨some 0, some 0, some 0⟩
      let r1 : Vec3 := ⟨width, some 0, some 0⟩
      let r2 : Vec3 := ⟨width, height, some 0⟩
      let r3 : Vec3 := ⟨some 0, height, some 0⟩
      let matrix := getMat4 piV cosF sinF st (some pos1)
      let (k0, k1, k2, k3, originT) :=
        if pos1.transformOrigin = .str transformOriginDefault then
          (transformMat4 r0 matrix, transformMat4 r1 matrix, transformMat4 r2 matrix,
           transformMat4 r3 matrix, getOriginTranslation pos1)
        else
          let translate := getOriginTranslation pos1
          let tf := fun v =>
            transformMat4 (transformMat4 (transformMat4 v translate.1) matrix) translate.2
          (tf r0, tf r1, tf r2, tf r3, translate)
      (⟨jadd pos1.left k0.x, jadd pos1.top k0.y, k0.z⟩,
       ⟨jadd pos1.left k1.x, jadd pos1.top k1.y, k1.z⟩,
       ⟨jadd pos1.left k2.x, jadd pos1.top k2.y, k2.z⟩,
       ⟨jadd pos1.left k3.x, jadd pos1.top k3.y, k3.z⟩,
       matrix, originT)
    else
      (⟨pos1.left, pos1.top, output.c0.z⟩,
       ⟨jadd pos1.left width, pos1.top, output.c1.z⟩,
       ⟨jadd pos1.left width, jadd pos1.top height, output.c2.z⟩,
       ⟨pos1.left, jadd pos1.top height, output.c3.z⟩,
       idMat4, output.originTranslations)
  let c0 := branch.1
  let c1 := branch.2.1
  let c2 := branch.2.2.1
  let c3 := branch.2.2.2.1
  let matOut := branch.2.2.2.2.1
  let originT := branch.2.2.2.2.2
  -- `for (let cntr = 4; --cntr >= 0;)` visits corners 3, 2, 1, 0.
  let scan := [c3, c2, c1, c0].foldl scanStep
    (minSafeInteger, minSafeInteger, maxSafeInteger, maxSafeInteger)
  let rect : Rect :=
    { x := scan.2.2.1, y := scan.2.2.2, width := jsub scan.1 scan.2.2.1,
      height := jsub scan.2.1 scan.2.2.2 }
  let pos2 := { pos1 with top := jsub pos1.top valOffsetTop,
                          left := jsub pos1.left valOffsetLeft }
  ({ c0 := c0, c1 := c1, c2 := c2, c3 := c3, mat4 := matOut,
     originTranslations := originT, boundingRect := rect }, pos2)

end Transforms

/-! ## Concrete sample states (used by closed witness / counterexample
theorems) -/

namespace ApplicationStateImpl

/-- A sample current application position. -/
def posA : PosObj := ⟨.num 1, .num 2, .jsNull, 0⟩

/-- A sample saved position, distinct from `posA`. -/
def posB : PosObj := ⟨.num 100, .num 200, .jsNull, 0⟩

/-- A sample saved application state holding `posB`. -/
def dataB : StateData := ⟨some posB, none, some 0, some ⟨.bool false⟩, 0⟩

/-- A sample rendered, non-minimized application at `posA`. -/
def appC : App := ⟨true, false, .jsNull, posA, none, 0⟩

/-- A sample state with one saved entry under the name `a`. -/
def stC : AppState := ⟨appC, none, [("a", dataB)]⟩

end ApplicationStateImpl

/-! # Theorems -/

/-! ## Association-list lemmas -/

theorem jmapGet_jmapSet_self [DecidableEq κ] (l : List (κ × α)) (k : κ) (v : α) :
    jmapGet (jmapSet l k v) k = some v := by
  induction l with
  | nil => simp [jmapSet, jmapGet]
  | cons h t ih =>
    obtain ⟨k', v'⟩ := h
    by_cases hk : k' = k <;> simp [jmapSet, jmapGet, hk, ih]

theorem jmapGet_jmapDelete_self [DecidableEq κ] (l : List (κ × α)) (k : κ) :
    jmapGet (jmapDelete l k) k = none := by
  induction l with
  | nil => rfl
  | cons h t ih =>
    obtain ⟨k', v'⟩ := h
    by_cases hk : k' = k <;> simp [jmapDelete, jmapGet, hk] at ih ⊢ <;>
      simpa [jmapDelete, hk] using ih

/-! ## Claim C2 -/

/-- C2: for every string name, after `save({name, ...extra})` the value
returned by `get({name})` is exactly the state data that `save` returned;
`remove({name})` returns that same data and afterwards `get({name})` returns
`undefined`; after `clear()`, `get` returns `undefined` for every name. -/
theorem save_get_remove_clear_roundtrip (st : ApplicationStateImpl.AppState)
    (s : String) (extra : ℕ) :
    ∃ d : StateData,
      (ApplicationStateImpl.save st (.str s) extra).2.2 = .ok d ∧
      (ApplicationStateImpl.get (ApplicationStateImpl.save st (.str s) extra).1 (.str s)).2.2
        = .ok (some d) ∧
      (ApplicationStateImpl.remove (ApplicationStateImpl.save st (.str s) extra).1 (.str s)).2.2
        = .ok (some d) ∧
      (ApplicationStateImpl.get
        (ApplicationStateImpl.remove (ApplicationStateImpl.save st (.str s) extra).1 (.str s)).1
        (.str s)).2.2 = .ok none ∧
      ∀ (st' : ApplicationStateImpl.AppState) (n : String),
        (ApplicationStateImpl.get (ApplicationStateImpl.clear st') (.str n)).2.2 = .ok none := by
  refine ⟨ApplicationStateImpl.current st.app extra, rfl, ?_, ?_, ?_, ?_⟩
  · simp [ApplicationStateImpl.get, ApplicationStateImpl.save, jmapGet_jmapSet_self]
  · simp [ApplicationStateImpl.remove, ApplicationStateImpl.save, jmapGet_jmapSet_self]
  · simp [ApplicationStateImpl.get, ApplicationStateImpl.remove, ApplicationStateImpl.save,
      jmapGet_jmapDelete_self]
  · intro st' n
    simp [ApplicationStateImpl.get, ApplicationStateImpl.clear, jmapGet]

/-! ## Claim C3 -/

/-- Helper: `restore` with a string name never throws and returns the map
lookup result. -/
theorem restore_str_result (st : ApplicationStateImpl.AppState) (s : String)
    (r a : Bool) (du : ℚ) (e : JSVal) :
    (ApplicationStateImpl.restore st (.str s) r a du e).2.2
      = .ok (jmapGet st.dataSaved s) := by
  simp only [ApplicationStateImpl.restore]
  rcases hm : jmapGet st.dataSaved s with _ | d
  · simp [hm]
  · simp only [hm]
    split <;> split <;> rfl

/-- C3: the four name-keyed operations throw a `TypeError` exactly when the
name is not a string, `set` / `#setImpl` throw a `TypeError` exactly when the
data is not an object, the saved-state map is untouched in every error case,
and those `TypeError`s are the only kind of failure (`JSError` has no other
constructor, mirroring that the source only ever throws `TypeError`). -/
theorem state_ops_typeError_exactness (st : ApplicationStateImpl.AppState)
    (name : JSVal) (data : JSData) (removeEntry animateTo : Bool)
    (duration : ℚ) (ease : JSVal) (extra : ℕ) :
    ((∃ e, (ApplicationStateImpl.get st name).2.2 = .error e) ↔ name.isStr = false) ∧
    (ApplicationStateImpl.get st name).1 = st ∧
    ((∃ e, (ApplicationStateImpl.remove st name).2.2 = .error e) ↔ name.isStr = false) ∧
    (name.isStr = false → (ApplicationStateImpl.remove st name).1 = st) ∧
    ((∃ e, (ApplicationStateImpl.save st name extra).2.2 = .error e) ↔ name.isStr = false) ∧
    (name.isStr = false → (ApplicationStateImpl.save st name extra).1 = st) ∧
    ((∃ e, (ApplicationStateImpl.restore st name removeEntry animateTo duration ease).2.2
        = .error e) ↔ name.isStr = false) ∧
    (name.isStr = false →
      (ApplicationStateImpl.restore st name removeEntry animateTo duration ease).1 = st) ∧
    ((∃ e, (ApplicationStateImpl.set st data animateTo duration ease).2.2 = .error e)
        ↔ data.isObj = false) ∧
    (ApplicationStateImpl.set st data animateTo duration ease).1.dataSaved = st.dataSaved ∧
    (data.isObj = false → (ApplicationStateImpl.set st data animateTo duration ease).1 = st) ∧
    (∀ e, (ApplicationStateImpl.get st name).2.2 = .error e → ∃ m, e = .typeError m) := by
  refine ⟨?_, ?_, ?_, ?_, ?_, ?_, ?_, ?_, ?_, ?_, ?_, ?_⟩
  · cases name <;> simp [ApplicationStateImpl.get, JSVal.isStr]
  · cases name <;> rfl
  · cases name <;> simp [ApplicationStateImpl.remove, JSVal.isStr]
  · cases name <;> simp [ApplicationStateImpl.remove, JSVal.isStr]
  · cases name <;> simp [ApplicationStateImpl.save, JSVal.isStr]
  · cases name <;> simp [ApplicationStateImpl.save, JSVal.isStr]
  · cases name with
    | str s =>
      simp only [restore_str_result]
      simp [JSVal.isStr]
    | undef => simp [JSVal.isStr, ApplicationStateImpl.restore]
    | jsNull => simp [JSVal.isStr, ApplicationStateImpl.restore]
    | bool b => simp [JSVal.isStr, ApplicationStateImpl.restore]
    | num q => simp [JSVal.isStr, ApplicationStateImpl.restore]
    | nan => simp [JSVal.isStr, ApplicationStateImpl.restore]
  · cases name <;> simp [ApplicationStateImpl.restore, JSVal.isStr]
  · cases data <;> simp [ApplicationStateImpl.set, ApplicationStateImpl.setImpl, JSData.isObj]
  · cases data <;> rfl
  · cases data <;> simp [ApplicationStateImpl.set, ApplicationStateImpl.setImpl, JSData.isObj]
  · intro e _
    cases e
    exact ⟨_, rfl⟩

/-- Witness for C3 at a concrete state and non-string name. -/
theorem state_ops_typeError_exactness_witness :
    ((∃ e, (ApplicationStateImpl.get ApplicationStateImpl.stC (.num 3)).2.2 = .error e)
        ↔ JSVal.isStr (.num 3) = false) ∧
    (ApplicationStateImpl.get ApplicationStateImpl.stC (.num 3)).1 = ApplicationStateImpl.stC ∧
    ((∃ e, (ApplicationStateImpl.remove ApplicationStateImpl.stC (.num 3)).2.2 = .error e)
        ↔ JSVal.isStr (.num 3) = false) ∧
    (JSVal.isStr (.num 3) = false →
      (ApplicationStateImpl.remove ApplicationStateImpl.stC (.num 3)).1
        = ApplicationStateImpl.stC) ∧
    ((∃ e, (ApplicationStateImpl.save ApplicationStateImpl.stC (.num 3) 0).2.2 = .error e)
        ↔ JSVal.isStr (.num 3) = false) ∧
    (JSVal.isStr (.num 3) = false →
      (ApplicationStateImpl.save ApplicationStateImpl.stC (.num 3) 0).1
        = ApplicationStateImpl.stC) ∧
    ((∃ e, (ApplicationStateImpl.restore ApplicationStateImpl.stC (.num 3) false false 1
        (.str "linear")).2.2 = .error e) ↔ JSVal.isStr (.num 3) = false) ∧
    (JSVal.isStr (.num 3) = false →
      (ApplicationStateImpl.restore ApplicationStateImpl.stC (.num 3) false false 1
        (.str "linear")).1 = ApplicationStateImpl.stC) ∧
    ((∃ e, (ApplicationStateImpl.set ApplicationStateImpl.stC (.notObj .undef) false 1
        (.str "linear")).2.2 = .error e) ↔ JSData.isObj (.notObj .undef) = false) ∧
    (ApplicationStateImpl.set ApplicationStateImpl.stC (.notObj .undef) false 1
        (.str "linear")).1.dataSaved = ApplicationStateImpl.stC.dataSaved ∧
    (JSData.isObj (.notObj .undef) = false →
      (ApplicationStateImpl.set ApplicationStateImpl.stC (.notObj .undef) false 1
        (.str "linear")).1 = ApplicationStateImpl.stC) ∧
    (∀ e, (ApplicationStateImpl.get ApplicationStateImpl.stC (.num 3)).2.2 = .error e →
      ∃ m, e = .typeError m) :=
  state_ops_typeError_exactness ApplicationStateImpl.stC (.num 3) (.notObj .undef)
    false false 1 (.str "linear") 0

/-! ## Claim C1 -/

/-- Counterexample to C1 as stated: with the saved name present, `restore`
with default options (`remove: false`, `animateTo: false`) returns the saved
data but performs no call into the application and leaves the application
state (including its position, which differs from the saved position)
completely unchanged — it does not apply the saved state. -/
theorem restore_plain_counterexample :
    ApplicationStateImpl.restore ApplicationStateImpl.stC (.str "a") false false (1 / 10)
        (.str "linear")
      = (ApplicationStateImpl.stC, [], .ok (some ApplicationStateImpl.dataB)) ∧
    ApplicationStateImpl.dataB.position = some ApplicationStateImpl.posB ∧
    ApplicationStateImpl.stC.app.position ≠ ApplicationStateImpl.posB := by
  refine ⟨rfl, rfl, by decide⟩

/-- C1 (amended): `restore` returns the saved data for a present name
(`undefined` when absent) and deletes the entry when `remove` is true; the
saved state is applied to the application only when `animateTo` is true —
then, when the application is rendered and no restore of the same name is in
progress, an animation to the saved position is scheduled and the restore key
is recorded; with `animateTo` false the application is left untouched and no
call into it is made. -/
theorem restore_returns_and_applies_only_when_animated
    (st : ApplicationStateImpl.AppState) (s : String) (removeEntry animateTo : Bool)
    (duration : ℚ) (ease : JSVal) :
    (ApplicationStateImpl.restore st (.str s) removeEntry animateTo duration ease).2.2
      = .ok (jmapGet st.dataSaved s) ∧
    (jmapGet st.dataSaved s = none →
      ApplicationStateImpl.restore st (.str s) removeEntry animateTo duration ease
        = (st, [], .ok none)) ∧
    (removeEntry = true →
      jmapGet (ApplicationStateImpl.restore st (.str s) removeEntry animateTo duration
          ease).1.dataSaved s = none) ∧
    (animateTo = false →
      (ApplicationStateImpl.restore st (.str s) removeEntry animateTo duration ease).1.app
          = st.app ∧
      (ApplicationStateImpl.restore st (.str s) removeEntry animateTo duration ease).2.1 = []) ∧
    (∀ d pos, jmapGet st.dataSaved s = some d → d.position = some pos →
      animateTo = true → st.currentRestoreKey ≠ some s → st.app.rendered = true →
      AppEffect.animateScheduled pos duration ease ∈
        (ApplicationStateImpl.restore st (.str s) removeEntry animateTo duration ease).2.1 ∧
      (ApplicationStateImpl.restore st (.str s) removeEntry animateTo duration
          ease).1.currentRestoreKey = some s) := by
  refine ⟨restore_str_result st s removeEntry animateTo duration ease, ?_, ?_, ?_, ?_⟩
  · intro hm
    simp [ApplicationStateImpl.restore, hm]
  · intro hr
    subst hr
    simp only [ApplicationStateImpl.restore]
    rcases hm : jmapGet st.dataSaved s with _ | d
    · simp [hm]
    · simp [hm]
      split <;> simp [jmapGet_jmapDelete_self]
  · intro ha
    subst ha
    simp only [ApplicationStateImpl.restore]
    rcases hm : jmapGet st.dataSaved s with _ | d
    · simp [hm]
    · simp [hm]
      split <;> rfl
  · intro d pos hm hpos ha hkey hrend
    subst ha
    cases removeEntry <;>
      simp [ApplicationStateImpl.restore, hm, hkey, ApplicationStateImpl.setImplObj,
        hpos, hrend]

/-- Witness for C1 (amended): a restore with `remove` and `animateTo` true on
the sample state schedules the animation to the saved position and records
the restore key. -/
theorem restore_returns_and_applies_only_when_animated_witness :
    AppEffect.animateScheduled ApplicationStateImpl.posB 1 (.str "linear") ∈
      (ApplicationStateImpl.restore ApplicationStateImpl.stC (.str "a") true true 1
        (.str "linear")).2.1 ∧
    (ApplicationStateImpl.restore ApplicationStateImpl.stC (.str "a") true true 1
        (.str "linear")).1.currentRestoreKey = some "a" :=
  (restore_returns_and_applies_only_when_animated ApplicationStateImpl.stC "a" true true 1
      (.str "linear")).2.2.2.2 ApplicationStateImpl.dataB ApplicationStateImpl.posB
    (by decide) (by decide) rfl (by decide) (by decide)

/-! ## Claim C6 -/

/-- Helper: `findIndex` misses an element that is not in the list. -/
theorem findIdx_eq_none_of_not_mem (l : List ℕ) (h : ℕ) (i : ℕ) (hn : h ∉ l) :
    l.findIdx? (fun sub => sub == h) i = none := by
  induction l generalizing i with
  | nil => rfl
  | cons a t ih =>
    rw [List.findIdx?_cons]
    have ha : (a == h) = false := by
      simp only [beq_eq_false_iff_ne, ne_eq]
      exact fun hc => hn (hc ▸ List.mem_cons_self a t)
    simp only [ha, if_false]
    exact ih (i + 1) (fun hm => hn (List.mem_cons_of_mem a hm))

/-- Helper: `findIndex` of a freshly appended element is its index. -/
theorem findIdx_append_fresh (l : List ℕ) (h : ℕ) (i : ℕ) (hn : h ∉ l) :
    (l ++ [h]).findIdx? (fun sub => sub == h) i = some (i + l.length) := by
  induction l generalizing i with
  | nil => simp [List.findIdx?_cons]
  | cons a t ih =>
    rw [List.cons_append, List.findIdx?_cons]
    have ha : (a == h) = false := by
      simp only [beq_eq_false_iff_ne, ne_eq]
      exact fun hc => hn (hc ▸ List.mem_cons_self a t)
    simp only [ha, if_false]
    rw [ih (i + 1) (fun hm => hn (List.mem_cons_of_mem a hm))]
    simp
    omega

/-- Helper: erasing the index just past a list removes a single appended
element. -/
theorem eraseIdx_append_singleton (l : List ℕ) (h : ℕ) :
    (l ++ [h]).eraseIdx l.length = l := by
  induction l with
  | nil => rfl
  | cons a t ih => simp [List.eraseIdx, ih]

/-- Counterexample to C6 as stated: when the same handler function is
subscribed twice, the unsubscribe function returned by `subscribe` removes
only one registration, so a later `set` still invokes the handler. -/
theorem subscribe_duplicate_counterexample :
    (0, some 1, TJSDocument.emptyOptions) ∈
      (TJSDocument.set
        (TJSDocument.unsubscribeFor 0
          (TJSDocument.subscribe
            (TJSDocument.subscribe ⟨none, [], TJSDocument.emptyOptions⟩ 0).1 0).1)
        (some 1) TJSDocument.emptyOptions).2 := by decide

/-- C6 (amended): `subscribe` immediately invokes the handler exactly once
with the current document and `{ action: 'subscribe', data: undefined }`;
every `set` invokes every currently registered handler with the new document;
and — provided the handler was not already registered when `subscribe` was
called — the returned unsubscribe function removes it, later `set` calls do
not invoke it, and a second unsubscribe call leaves the subscriber list
unchanged. -/
theorem subscribe_set_unsubscribe_spec (st : TJSDocument.DocState) (h : ℕ)
    (hnot : h ∉ st.subscriptions) :
    (TJSDocument.subscribe st h).2 = [(h, st.document, TJSDocument.subscribeOptions)] ∧
    (∀ (st' : TJSDocument.DocState) (doc : Option ℕ) (opts : TJSDocument.UpdateOptions)
       (g : ℕ), g ∈ st'.subscriptions →
         (g, doc, TJSDocument.emptyOptions) ∈ (TJSDocument.set st' doc opts).2) ∧
    h ∉ (TJSDocument.unsubscribeFor h (TJSDocument.subscribe st h).1).subscriptions ∧
    (∀ (doc : Option ℕ) (opts : TJSDocument.UpdateOptions) (ev : TJSDocument.DocEvent),
       ev ∈ (TJSDocument.set (TJSDocument.unsubscribeFor h (TJSDocument.subscribe st h).1)
         doc opts).2 → ev.1 ≠ h) ∧
    TJSDocument.unsubscribeFor h (TJSDocument.unsubscribeFor h (TJSDocument.subscribe st h).1)
      = TJSDocument.unsubscribeFor h (TJSDocument.subscribe st h).1 := by
  have hsub : (TJSDocument.unsubscribeFor h
      (TJSDocument.subscribe st h).1).subscriptions = st.subscriptions := by
    simp only [TJSDocument.unsubscribeFor, TJSDocument.subscribe]
    rw [findIdx_append_fresh st.subscriptions h 0 hnot]
    simpa using eraseIdx_append_singleton st.subscriptions h
  refine ⟨rfl, ?_, ?_, ?_, ?_⟩
  · intro st' doc opts g hg
    simp [TJSDocument.set, TJSDocument.updateSubscribers]
    exact hg
  · rw [hsub]; exact hnot
  · intro doc opts ev hev
    have hev' : ev ∈ st.subscriptions.map (fun g => (g, doc, TJSDocument.emptyOptions)) := by
      simpa [TJSDocument.set, TJSDocument.updateSubscribers, hsub] using hev
    obtain ⟨g, hg, hEq⟩ := List.mem_map.mp hev'
    cases hEq
    exact fun hc => hnot (hc ▸ hg)
  · have hnone : (TJSDocument.unsubscribeFor h
        (TJSDocument.subscribe st h).1).subscriptions.findIdx? (fun sub => sub == h) = none := by
      rw [hsub]
      exact findIdx_eq_none_of_not_mem st.subscriptions h 0 hnot
    conv_lhs => rw [TJSDocument.unsubscribeFor, hnone]

/-- Witness for C6 (amended) on the empty store with handler `0`. -/
theorem subscribe_set_unsubscribe_spec_witness :
    (TJSDocument.subscribe ⟨none, [], TJSDocument.emptyOptions⟩ 0).2
      = [(0, none, TJSDocument.subscribeOptions)] ∧
    (∀ (st' : TJSDocument.DocState) (doc : Option ℕ) (opts : TJSDocument.UpdateOptions)
       (g : ℕ), g ∈ st'.subscriptions →
         (g, doc, TJSDocument.emptyOptions) ∈ (TJSDocument.set st' doc opts).2) ∧
    0 ∉ (TJSDocument.unsubscribeFor 0
      (TJSDocument.subscribe ⟨none, [], TJSDocument.emptyOptions⟩ 0).1).subscriptions ∧
    (∀ (doc : Option ℕ) (opts : TJSDocument.UpdateOptions) (ev : TJSDocument.DocEvent),
       ev ∈ (TJSDocument.set (TJSDocument.unsubscribeFor 0
         (TJSDocument.subscribe ⟨none, [], TJSDocument.emptyOptions⟩ 0).1) doc opts).2 →
         ev.1 ≠ 0) ∧
    TJSDocument.unsubscribeFor 0 (TJSDocument.unsubscribeFor 0
        (TJSDocument.subscribe ⟨none, [], TJSDocument.emptyOptions⟩ 0).1)
      = TJSDocument.unsubscribeFor 0
          (TJSDocument.subscribe ⟨none, [], TJSDocument.emptyOptions⟩ 0).1 :=
  subscribe_set_unsubscribe_spec ⟨none, [], TJSDocument.emptyOptions⟩ 0 (by simp)

/-! ## Claim C7 -/

/-- C7: after `updateHeaderButtons` with `headerButtonNoClose` true the
button array written to the UI store contains no button of class `close`;
with `headerButtonNoLabel` true every button in it has `undefined` label;
with both flags false the array is the `_getHeaderButtons()` result
unchanged. -/
theorem updateHeaderButtons_spec (noClose noLabel : JSVal)
    (buttons : List SvelteReactiveImpl.HeaderButton) (ui : SvelteReactiveImpl.UIState) :
    (∀ b ∈ (SvelteReactiveImpl.updateHeaderButtons (.bool true) noLabel buttons
        ui).headerButtons, b.«class» ≠ .str "close") ∧
    (∀ b ∈ (SvelteReactiveImpl.updateHeaderButtons noClose (.bool true) buttons
        ui).headerButtons, b.label = .undef) ∧
    (SvelteReactiveImpl.updateHeaderButtons (.bool false) (.bool false) buttons
        ui).headerButtons = buttons := by
  refine ⟨?_, ?_, rfl⟩
  · intro b hb
    simp only [SvelteReactiveImpl.updateHeaderButtons] at hb
    rcases noLabel with _ | _ | bl | _ | _ | _
    case bool =>
      rcases bl
      case false =>
        simp only [List.mem_filter, decide_eq_true_eq] at hb
        exact hb.2
      case true =>
        obtain ⟨b', hb', rfl⟩ := List.mem_map.mp hb
        simp only [List.mem_filter, decide_eq_true_eq] at hb'
        exact hb'.2
    all_goals
      simp only [List.mem_filter, decide_eq_true_eq] at hb
      exact hb.2
  · intro b hb
    simp only [SvelteReactiveImpl.updateHeaderButtons] at hb
    rcases noClose with _ | _ | bc | _ | _ | _ <;>
      [skip; skip; rcases bc with _ | _; skip; skip; skip] <;>
    · obtain ⟨b', hb', rfl⟩ := List.mem_map.mp hb
      rfl

/-- Witness for C7 on a two-button list containing a close button. -/
theorem updateHeaderButtons_spec_witness :
    (∀ b ∈ (SvelteReactiveImpl.updateHeaderButtons (.bool true) (.bool false)
        [⟨.str "close", .str "Close", 0⟩, ⟨.str "minimize", .str "Minimize", 1⟩]
        ⟨[], 0⟩).headerButtons, b.«class» ≠ .str "close") ∧
    (∀ b ∈ (SvelteReactiveImpl.updateHeaderButtons (.bool true) (.bool true)
        [⟨.str "close", .str "Close", 0⟩, ⟨.str "minimize", .str "Minimize", 1⟩]
        ⟨[], 0⟩).headerButtons, b.label = .undef) ∧
    (SvelteReactiveImpl.updateHeaderButtons (.bool false) (.bool false)
        [⟨.str "close", .str "Close", 0⟩, ⟨.str "minimize", .str "Minimize", 1⟩]
        ⟨[], 0⟩).headerButtons
      = [⟨.str "close", .str "Close", 0⟩, ⟨.str "minimize", .str "Minimize", 1⟩] :=
  updateHeaderButtons_spec (.bool true) (.bool false)
    [⟨.str "close", .str "Close", 0⟩, ⟨.str "minimize", .str "Minimize", 1⟩] ⟨[], 0⟩ |>.imp
      id (fun hrest => hrest)

/-! ## Claim C8 -/

/-- C8: each boolean reactive option setter stores a boolean value in the
application options under its key and pushes the updated options object to
the app options store; any non-boolean value leaves options and store
unchanged. The title setter stores strings, maps `undefined` and `null` to
the empty string, and pushes the updated options likewise. -/
theorem option_setters_spec (st : SvelteReactiveImpl.ReactiveState)
    (k : SvelteReactiveImpl.BoolOption) (v : JSVal) :
    (∀ b : Bool, v = .bool b →
      jmapGet (SvelteReactiveImpl.setBoolOption st k v).options k.key = some v ∧
      (SvelteReactiveImpl.setBoolOption st k v).storeAppOptions
        = (SvelteReactiveImpl.setBoolOption st k v).options) ∧
    (v.isBool = false → SvelteReactiveImpl.setBoolOption st k v = st) ∧
    (∀ s : String,
      jmapGet (SvelteReactiveImpl.setTitle st (.str s)).options "title" = some (.str s) ∧
      (SvelteReactiveImpl.setTitle st (.str s)).storeAppOptions
        = (SvelteReactiveImpl.setTitle st (.str s)).options) ∧
    jmapGet (SvelteReactiveImpl.setTitle st .undef).options "title" = some (.str "") ∧
    jmapGet (SvelteReactiveImpl.setTitle st .jsNull).options "title" = some (.str "") ∧
    (v.isBool = false → v.isStr = false → v ≠ .undef → v ≠ .jsNull →
      SvelteReactiveImpl.setTitle st v = st) := by
  refine ⟨?_, ?_, ?_, ?_, ?_, ?_⟩
  · rintro b rfl
    exact ⟨jmapGet_jmapSet_self st.options k.key (.bool b), rfl⟩
  · intro hb
    cases v <;> simp_all [SvelteReactiveImpl.setBoolOption, JSVal.isBool]
  · intro s
    exact ⟨jmapGet_jmapSet_self st.options "title" (.str s), rfl⟩
  · exact jmapGet_jmapSet_self st.options "title" (.str "")
  · exact jmapGet_jmapSet_self st.options "title" (.str "")
  · intro hb hs hu hn
    cases v <;> simp_all [SvelteReactiveImpl.setTitle, JSVal.isBool, JSVal.isStr]

/-- Witness for C8 with the `draggable` setter on empty options. -/
theorem option_setters_spec_witness :
    jmapGet (SvelteReactiveImpl.setBoolOption ⟨[], []⟩ .draggable (.bool true)).options
        SvelteReactiveImpl.BoolOption.draggable.key = some (.bool true) ∧
    (SvelteReactiveImpl.setBoolOption ⟨[], []⟩ .draggable (.bool true)).storeAppOptions
      = (SvelteReactiveImpl.setBoolOption ⟨[], []⟩ .draggable (.bool true)).options ∧
    SvelteReactiveImpl.setBoolOption ⟨[], []⟩ .draggable .nan = ⟨[], []⟩ ∧
    SvelteReactiveImpl.setTitle ⟨[], []⟩ .undef
      = ⟨[("title", .str "")], [("title", .str "")]⟩ := by
  have h := option_setters_spec ⟨[], []⟩ .draggable (.bool true)
  have h2 := option_setters_spec ⟨[], []⟩ .draggable .nan
  obtain ⟨hset, _⟩ := h.1 true rfl
  refine ⟨hset, (h.1 true rfl).2, h2.2.1 (by decide), by decide⟩

/-! ## Claim C10 -/

theorem jmapGet_eq_none_iff [DecidableEq κ] (l : List (κ × α)) (k : κ) :
    jmapGet l k = none ↔ k ∉ l.map Prod.fst := by
  induction l with
  | nil => simp [jmapGet]
  | cons h t ih =>
    obtain ⟨k', v⟩ := h
    by_cases hk : k' = k
    · subst hk
      simp [jmapGet]
    · simp only [jmapGet, if_neg hk, ih, List.map_cons, List.mem_cons]
      constructor
      · intro hp hor
        rcases hor with h1 | h2
        · exact hk h1.symm
        · exact hp h2
      · intro hp h2
        exact hp (Or.inr h2)

theorem jmapSet_keys_of_none [DecidableEq κ] {l : List (κ × α)} {k : κ} (v : α)
    (hg : jmapGet l k = none) :
    (jmapSet l k v).map Prod.fst = l.map Prod.fst ++ [k] := by
  induction l with
  | nil => simp [jmapSet]
  | cons h t ih =>
    obtain ⟨k', v'⟩ := h
    by_cases hk : k' = k
    · rw [jmapGet, if_pos hk] at hg
      cases hg
    · rw [jmapGet, if_neg hk] at hg
      simp [jmapSet, if_neg hk, ih hg]

theorem jmapSet_keys_of_some [DecidableEq κ] {l : List (κ × α)} {k : κ} {w : α} (v : α)
    (hg : jmapGet l k = some w) :
    (jmapSet l k v).map Prod.fst = l.map Prod.fst := by
  induction l with
  | nil => cases hg
  | cons h t ih =>
    obtain ⟨k', v'⟩ := h
    by_cases hk : k' = k
    · simp [jmapSet, if_pos hk, hk]
    · rw [jmapGet, if_neg hk] at hg
      simp [jmapSet, if_neg hk, ih hg]

theorem jmapSet_length_of_none [DecidableEq κ] {l : List (κ × α)} {k : κ} (v : α)
    (hg : jmapGet l k = none) :
    (jmapSet l k v).length = l.length + 1 := by
  have := jmapSet_keys_of_none (l := l) (k := k) v hg
  have h1 := congrArg List.length this
  simpa using h1

theorem jmapSet_length_of_some [DecidableEq κ] {l : List (κ × α)} {k : κ} {w : α} (v : α)
    (hg : jmapGet l k = some w) :
    (jmapSet l k v).length = l.length := by
  have := jmapSet_keys_of_some (l := l) (k := k) v hg
  have h1 := congrArg List.length this
  simpa using h1

theorem jmapDelete_keys [DecidableEq κ] (l : List (κ × α)) (k : κ) :
    (jmapDelete l k).map Prod.fst
      = (l.map Prod.fst).filter (fun x => decide (x ≠ k)) := by
  induction l with
  | nil => rfl
  | cons h t ih =>
    obtain ⟨k', v'⟩ := h
    by_cases hk : k' = k <;>
      simp [jmapDelete, List.filter_cons, hk] <;>
      simpa [jmapDelete] using ih

theorem jmapDelete_eq_self [DecidableEq κ] (l : List (κ × α)) (k : κ)
    (h : k ∉ l.map Prod.fst) : jmapDelete l k = l := by
  rw [jmapDelete, List.filter_eq_self.mpr]
  intro a ha
  have : a.1 ≠ k := fun hc => h (hc ▸ List.mem_map_of_mem Prod.fst ha)
  simpa using this

theorem jmapDelete_length_of_mem [DecidableEq κ] (l : List (κ × α)) (k : κ)
    (hn : (l.map Prod.fst).Nodup) (hk : k ∈ l.map Prod.fst) :
    (jmapDelete l k).length + 1 = l.length := by
  induction l with
  | nil => simp at hk
  | cons h t ih =>
    obtain ⟨k', v'⟩ := h
    simp only [List.map_cons, List.nodup_cons] at hn
    by_cases hkk : k' = k
    · subst hkk
      have hdel : jmapDelete t k' = t := jmapDelete_eq_self t k' hn.1
      have : jmapDelete ((k', v') :: t) k' = jmapDelete t k' := by
        simp [jmapDelete, List.filter_cons]
      rw [this, hdel, List.length_cons]
    · have hkt : k ∈ t.map Prod.fst := by
        rw [List.map_cons] at hk
        rcases List.mem_cons.mp hk with hc | hc
        · exact absurd hc.symm hkk
        · exact hc
      have hrec := ih hn.2 hkt
      have : jmapDelete ((k', v') :: t) k = (k', v') :: jmapDelete t k := by
        simp [jmapDelete, List.filter_cons, hkk]
      rw [this, List.length_cons, List.length_cons]
      omega

theorem jmapSet_keys_nodup [DecidableEq κ] (l : List (κ × α)) (k : κ) (v : α)
    (hn : (l.map Prod.fst).Nodup) : ((jmapSet l k v).map Prod.fst).Nodup := by
  rcases hg : jmapGet l k with _ | w
  · rw [jmapSet_keys_of_none v hg, List.nodup_append]
    refine ⟨hn, List.nodup_singleton k, ?_⟩
    intro x hx hx2
    rw [List.mem_singleton] at hx2
    exact (jmapGet_eq_none_iff l k).mp hg (hx2 ▸ hx)
  · rw [jmapSet_keys_of_some v hg]
    exact hn

theorem jmapDelete_keys_nodup [DecidableEq κ] (l : List (κ × α)) (k : κ)
    (hn : (l.map Prod.fst).Nodup) : ((jmapDelete l k).map Prod.fst).Nodup := by
  rw [jmapDelete_keys]
  exact hn.filter _

theorem resetStep_keys_nodup (acc : List (Transforms.TKey × ℚ)) (kv : String × JSVal)
    (hn : (acc.map Prod.fst).Nodup) :
    ((Transforms.resetStep acc kv).map Prod.fst).Nodup := by
  rcases kv with ⟨s, v⟩
  simp only [Transforms.resetStep]
  rcases Transforms.parseTKey s with _ | k
  · exact hn
  · cases v <;>
      first
      | exact jmapSet_keys_nodup _ _ _ hn
      | exact jmapDelete_keys_nodup _ _ hn

theorem foldl_resetStep_keys_nodup (input : List (String × JSVal))
    (acc : List (Transforms.TKey × ℚ)) (hn : (acc.map Prod.fst).Nodup) :
    (((input.foldl Transforms.resetStep acc)).map Prod.fst).Nodup := by
  induction input generalizing acc with
  | nil => exact hn
  | cons kv t ih => exact ih _ (resetStep_keys_nodup acc kv hn)

/-- C10: the `Transforms` internal count always equals the number of
transform keys stored in its local data; the invariant (together with key
uniqueness of the underlying object) is preserved by the seven property
setters (embedded jointly as `setKey`) and by `reset`; under the invariant
`isActive` is true exactly when at least one transform property is set. -/
theorem transforms_count_invariant (st : Transforms.TState) (k : Transforms.TKey)
    (v : JSVal) (input : List (String × JSVal))
    (hc : st.count = (st.data.length : ℤ)) (hn : (st.data.map Prod.fst).Nodup) :
    ((Transforms.setKey st k v).count = ((Transforms.setKey st k v).data.length : ℤ) ∧
      ((Transforms.setKey st k v).data.map Prod.fst).Nodup) ∧
    ((Transforms.reset st input).count = ((Transforms.reset st input).data.length : ℤ) ∧
      ((Transforms.reset st input).data.map Prod.fst).Nodup) ∧
    (Transforms.isActive st = true ↔ st.data ≠ []) := by
  refine ⟨?_, ⟨rfl, foldl_resetStep_keys_nodup input st.data hn⟩, ?_⟩
  · cases v
    case num q =>
      rcases hg : jmapGet st.data k with _ | w
      · refine ⟨?_, ?_⟩
        · have hlen := jmapSet_length_of_none (l := st.data) (k := k) q hg
          simp [Transforms.setKey, hg, hlen, hc]
        · have hns := jmapSet_keys_nodup st.data k q hn
          simpa [Transforms.setKey, hg] using hns
      · refine ⟨?_, ?_⟩
        · have hlen := jmapSet_length_of_some (l := st.data) (k := k) q hg
          simp [Transforms.setKey, hg, hlen, hc]
        · have hns := jmapSet_keys_nodup st.data k q hn
          simpa [Transforms.setKey, hg] using hns
    all_goals
      rcases hg : jmapGet st.data k with _ | w
      · have hdel : jmapDelete st.data k = st.data :=
          jmapDelete_eq_self st.data k ((jmapGet_eq_none_iff st.data k).mp hg)
        refine ⟨?_, ?_⟩
        · simp [Transforms.setKey, hg, hdel, hc]
        · simpa [Transforms.setKey, hg, hdel] using hn
      · have hmem : k ∈ st.data.map Prod.fst := by
          by_contra hcon
          rw [(jmapGet_eq_none_iff st.data k).mpr hcon] at hg
          cases hg
        have hlen := jmapDelete_length_of_mem st.data k hn hmem
        refine ⟨?_, ?_⟩
        · simp [Transforms.setKey, hg, hc]
          omega
        · simpa [Transforms.setKey, hg] using jmapDelete_keys_nodup st.data k hn
  · rw [Transforms.isActive, decide_eq_true_eq, hc]
    constructor
    · intro hpos
      have hl : 0 < st.data.length := by exact_mod_cast hpos
      exact List.length_pos.mp hl
    · intro hne
      have hl : 0 < st.data.length := List.length_pos.mpr hne
      exact_mod_cast hl

/-- Witness for C10 on the empty transform state. -/
theorem transforms_count_invariant_witness :
    ((Transforms.setKey ⟨[], 0⟩ .rotateX (.num 45)).count
        = ((Transforms.setKey ⟨[], 0⟩ .rotateX (.num 45)).data.length : ℤ) ∧
      ((Transforms.setKey ⟨[], 0⟩ .rotateX (.num 45)).data.map Prod.fst).Nodup) ∧
    ((Transforms.reset ⟨[], 0⟩ [("rotateX", .num 45), ("junk", .bool true)]).count
        = ((Transforms.reset ⟨[], 0⟩
            [("rotateX", .num 45), ("junk", .bool true)]).data.length : ℤ) ∧
      ((Transforms.reset ⟨[], 0⟩
          [("rotateX", .num 45), ("junk", .bool true)]).data.map Prod.fst).Nodup) ∧
    (Transforms.isActive ⟨[], 0⟩ = true ↔ (⟨[], 0⟩ : Transforms.TState).data ≠ []) :=
  transforms_count_invariant ⟨[], 0⟩ .rotateX (.num 45)
    [("rotateX", .num 45), ("junk", .bool true)] rfl List.nodup_nil

/-! ## Claim C5 -/

/-- C5: for every transform data object (the local data itself or any other
data object), `getCSS(data)` is the string `matrix3d(` followed by the 16 flat
entries of the matrix computed by `getMat4(data)` joined with commas,
followed by `)`. -/
theorem getCSS_matrix3d_structure (piV : ℚ) (cosF sinF : ℚ → ℚ)
    (st : Transforms.TState) (dataArg : Option Transforms.TPosition) :
    Transforms.getCSS piV cosF sinF st dataArg
      = "matrix3d(" ++ String.intercalate ","
          ((Transforms.mat4ToList (Transforms.getMat4 piV cosF sinF st dataArg)).map
            Transforms.qToString) ++ ")" ∧
    (Transforms.mat4ToList (Transforms.getMat4 piV cosF sinF st dataArg)).length = 16 :=
  ⟨rfl, rfl⟩

/-! ## Claim C9 -/

/-- Counterexample to C9 as stated: a validation data object whose
`offsetTop` is present but not finite (`NaN`) leaves `position.top` changed
(`NaN`) after `getData` returns — `(top + NaN) - NaN` is `NaN`, not `top`. -/
theorem getData_offsets_counterexample :
    (Transforms.getData 0 (fun q => q) (fun q => q) ⟨[], 0⟩
        ⟨some 5, some 6, some 10, some 10, none, none, none, none, none, none, none,
          .undef⟩
        Transforms.mkTransformData ⟨none, none, some none, none, none⟩).2.top = none ∧
    (⟨some 5, some 6, some 10, some 10, none, none, none, none, none, none, none,
        .undef⟩ : Transforms.TPosition).top = some 6 := by
  exact ⟨rfl, rfl⟩

/-- C9 (amended): whenever the effective validation offsets
(`offsetTop ?? marginTop ?? 0` and `offsetLeft ?? 0`) are finite numbers,
`getData` returns the position with `left` and `top` exactly as before the
call (the offsets added on entry are subtracted again before returning, which
is exact in rational arithmetic). -/
theorem getData_restores_position (piV : ℚ) (cosF sinF : ℚ → ℚ)
    (st : Transforms.TState) (position : Transforms.TPosition)
    (output : Transforms.TransformData) (vd : Transforms.ValidationData)
    (hT : ((vd.offsetTop <|> vd.marginTop).getD (some 0)).isSome = true)
    (hL : ((vd.offsetLeft).getD (some 0)).isSome = true) :
    (Transforms.getData piV cosF sinF st position output vd).2.left = position.left ∧
    (Transforms.getData piV cosF sinF st position output vd).2.top = position.top := by
  obtain ⟨oT, hoT⟩ := Option.isSome_iff_exists.mp hT
  obtain ⟨oL, hoL⟩ := Option.isSome_iff_exists.mp hL
  constructor
  · show Transforms.jsub (Transforms.jadd position.left ((vd.offsetLeft).getD (some 0)))
      ((vd.offsetLeft).getD (some 0)) = position.left
    rw [hoL]
    rcases position.left with _ | l
    · rfl
    · simp [Transforms.jadd, Transforms.jsub]
  · show Transforms.jsub (Transforms.jadd position.top
        ((vd.offsetTop <|> vd.marginTop).getD (some 0)))
      ((vd.offsetTop <|> vd.marginTop).getD (some 0)) = position.top
    rw [hoT]
    rcases position.top with _ | t
    · rfl
    · simp [Transforms.jadd, Transforms.jsub]

/-- Witness for C9 (amended) with empty validation data. -/
theorem getData_restores_position_witness :
    (Transforms.getData 0 (fun q => q) (fun q => q) ⟨[], 0⟩
        ⟨some 5, some 6, some 10, some 10, none, none, none, none, none, none, none,
          .undef⟩
        Transforms.mkTransformData Transforms.emptyValidation).2.left = some 5 ∧
    (Transforms.getData 0 (fun q => q) (fun q => q) ⟨[], 0⟩
        ⟨some 5, some 6, some 10, some 10, none, none, none, none, none, none, none,
          .undef⟩
        Transforms.mkTransformData Transforms.emptyValidation).2.top = some 6 :=
  getData_restores_position 0 (fun q => q) (fun q => q) ⟨[], 0⟩
    ⟨some 5, some 6, some 10, some 10, none, none, none, none, none, none, none, .undef⟩
    Transforms.mkTransformData Transforms.emptyValidation rfl rfl

/-! ## Claim C4 -/

theorem jgt_ite (a b : ℚ) :
    (if Transforms.jgt (some a) (some b) = true then (some a : Transforms.JQ)
      else (some b : Transforms.JQ)) = some (max b a) := by
  simp only [Transforms.jgt, decide_eq_true_eq]
  split
  · exact congrArg some (max_eq_right (le_of_lt (by assumption))).symm
  · exact congrArg some (max_eq_left (le_of_not_lt (by assumption))).symm

theorem jlt_ite (a b : ℚ) :
    (if Transforms.jlt (some a) (some b) = true then (some a : Transforms.JQ)
      else (some b : Transforms.JQ)) = some (min b a) := by
  simp only [Transforms.jlt, decide_eq_true_eq]
  split
  · exact congrArg some (min_eq_right (le_of_lt (by assumption))).symm
  · exact congrArg some (min_eq_left (le_of_not_lt (by assumption))).symm

/-- Counterexample to C4 as stated: with finite `left = 0`, `top = 0`,
`width = -1`, `height = 1` and no transform keys, the corners are as claimed,
but the bounding rectangle is `x = -1`, `y = 0`, `width = 1`, `height = 1` —
not `x = left`, `width = width` as the claim demands for every finite
position. -/
theorem getData_boundingRect_counterexample :
    (Transforms.getData 0 (fun q => q) (fun q => q) ⟨[], 0⟩
        ⟨some 0, some 0, some (-1), some 1, none, none, none, none, none, none, none,
          .undef⟩
        Transforms.mkTransformData Transforms.emptyValidation).1.boundingRect
      = ⟨some (-1), some 0, some 1, some 1⟩ ∧
    (Transforms.getData 0 (fun q => q) (fun q => q) ⟨[], 0⟩
        ⟨some 0, some 0, some (-1), some 1, none, none, none, none, none, none, none,
          .undef⟩
        Transforms.mkTransformData Transforms.emptyValidation).1.boundingRect
      ≠ ⟨some 0, some 0, some (-1), some 1⟩ := by
  have h1 : (Transforms.getData 0 (fun q => q) (fun q => q) ⟨[], 0⟩
      ⟨some 0, some 0, some (-1), some 1, none, none, none, none, none, none, none,
        .undef⟩
      Transforms.mkTransformData Transforms.emptyValidation).1.boundingRect
      = ⟨some (-1), some 0, some 1, some 1⟩ := by
    norm_num [Transforms.getData, Transforms.emptyValidation, Transforms.hasTransform,
      Transforms.transformKeys, Transforms.TPosition.getKey, Transforms.jadd,
      Transforms.jsub, Transforms.scanStep, Transforms.jlt, Transforms.jgt,
      Transforms.minSafeInteger, Transforms.maxSafeInteger, decide_eq_true_eq]
  refine ⟨h1, ?_⟩
  rw [h1]
  decide

/-- C4 (amended): for a position with finite `left`, `top`, nonnegative
finite `width` and `height`, no finite transform key, and corner coordinates
within reach of the safe-integer sentinels of the bounding-box scan
(`left ≤ 2^53 - 1`, `top ≤ 2^53 - 1`, `-(2^53 - 1) ≤ left + width`,
`-(2^53 - 1) ≤ top + height`), `getData` (with default validation data)
produces exactly the four claimed corners, the identity matrix and the
bounding rectangle `{x: left, y: top, width, height}`; corner z components
and the origin translations are those of the output instance. -/
theorem getData_no_transform_spec (piV : ℚ) (cosF sinF : ℚ → ℚ)
    (st : Transforms.TState) (l t w h : ℚ) (origin : Transforms.TOrigin)
    (output : Transforms.TransformData)
    (hw : 0 ≤ w) (hh : 0 ≤ h) (hl : l ≤ 2 ^ 53 - 1) (ht : t ≤ 2 ^ 53 - 1)
    (hlw : -(2 ^ 53 - 1) ≤ l + w) (hth : -(2 ^ 53 - 1) ≤ t + h) :
    (Transforms.getData piV cosF sinF st
        ⟨some l, some t, some w, some h, none, none, none, none, none, none, none,
          origin⟩
        output Transforms.emptyValidation).1
      = ⟨⟨some l, some t, output.c0.z⟩, ⟨some (l + w), some t, output.c1.z⟩,
         ⟨some (l + w), some (t + h), output.c2.z⟩, ⟨some l, some (t + h), output.c3.z⟩,
         Transforms.idMat4, output.originTranslations,
         ⟨some l, some t, some w, some h⟩⟩ := by
  simp [Transforms.getData, Transforms.emptyValidation, Transforms.hasTransform,
    Transforms.transformKeys, Transforms.TPosition.getKey, Transforms.jadd,
    Transforms.jsub, Transforms.scanStep, jgt_ite, jlt_ite,
    Transforms.minSafeInteger, Transforms.maxSafeInteger]
  have hminx : min (min ((2:ℚ) ^ 53 - 1) l) (l + w) = l := by
    rw [min_eq_right hl, min_eq_left (by linarith : l ≤ l + w)]
  have hmaxx : max (max ((1:ℚ) - 2 ^ 53) l) (l + w) = l + w :=
    max_eq_right (max_le (by linarith) (by linarith))
  have hmaxy : max (max ((1:ℚ) - 2 ^ 53) (t + h)) t = t + h := by
    rw [max_eq_right (by linarith : (1:ℚ) - 2 ^ 53 ≤ t + h),
      max_eq_left (by linarith : t ≤ t + h)]
  have hminy : min (min ((2:ℚ) ^ 53 - 1) (t + h)) t = t :=
    min_eq_right (le_min ht (by linarith))
  refine ⟨hminx, ⟨ht, hh⟩, ?_, ?_⟩
  · rw [hmaxx, hminx]
    ring
  · rw [hmaxy, hminy]
    ring

/-- Witness for C4 (amended) at a concrete position. -/
theorem getData_no_transform_spec_witness :
    (Transforms.getData 0 (fun q => q) (fun q => q) ⟨[], 0⟩
        ⟨some 1, some 2, some 3, some 4, none, none, none, none, none, none, none,
          .undef⟩
        Transforms.mkTransformData Transforms.emptyValidation).1
      = ⟨⟨some 1, some 2, Transforms.mkTransformData.c0.z⟩,
         ⟨some (1 + 3), some 2, Transforms.mkTransformData.c1.z⟩,
         ⟨some (1 + 3), some (2 + 4), Transforms.mkTransformData.c2.z⟩,
         ⟨some 1, some (2 + 4), Transforms.mkTransformData.c3.z⟩,
         Transforms.idMat4, Transforms.mkTransformData.originTranslations,
         ⟨some 1, some 2, some 3, some 4⟩⟩ :=
  getData_no_transform_spec 0 (fun q => q) (fun q => q) ⟨[], 0⟩ 1 2 3 4 .undef
    Transforms.mkTransformData (by norm_num) (by norm_num) (by norm_num) (by norm_num)
    (by norm_num) (by norm_num)

/-- Witness for C2 at the sample state. -/
theorem save_get_remove_clear_roundtrip_witness :
    ∃ d : StateData,
      (ApplicationStateImpl.save ApplicationStateImpl.stC (.str "x") 7).2.2 = .ok d ∧
      (ApplicationStateImpl.get
        (ApplicationStateImpl.save ApplicationStateImpl.stC (.str "x") 7).1 (.str "x")).2.2
        = .ok (some d) ∧
      (ApplicationStateImpl.remove
        (ApplicationStateImpl.save ApplicationStateImpl.stC (.str "x") 7).1 (.str "x")).2.2
        = .ok (some d) ∧
      (ApplicationStateImpl.get
        (ApplicationStateImpl.remove
          (ApplicationStateImpl.save ApplicationStateImpl.stC (.str "x") 7).1 (.str "x")).1
        (.str "x")).2.2 = .ok none ∧
      ∀ (st' : ApplicationStateImpl.AppState) (n : String),
        (ApplicationStateImpl.get (ApplicationStateImpl.clear st') (.str n)).2.2 = .ok none :=
  save_get_remove_clear_roundtrip ApplicationStateImpl.stC "x" 7

/-- Witness for C5 on the empty transform state with its local data. -/
theorem getCSS_matrix3d_structure_witness :
    Transforms.getCSS 0 (fun q => q) (fun q => q) ⟨[], 0⟩ none
      = "matrix3d(" ++ String.intercalate ","
          ((Transforms.mat4ToList (Transforms.getMat4 0 (fun q => q) (fun q => q)
            ⟨[], 0⟩ none)).map Transforms.qToString) ++ ")" ∧
    (Transforms.mat4ToList (Transforms.getMat4 0 (fun q => q) (fun q => q)
      ⟨[], 0⟩ none)).length = 16 :=
  getCSS_matrix3d_structure 0 (fun q => q) (fun q => q) ⟨[], 0⟩ none
